import Mathlib

/-!
Shallow embedding of the authentication/session core of the WebCom e-commerce
backend (src/controllers/BaseController.js, src/controllers/user/authController.js,
src/services userAuthServices, src/models Otp.js / RefreshToken.js).

Database rows are modelled as Lean structures, tables as lists of rows, time as
a natural number of milliseconds (JS Date values).  Sequelize `findOne` with no
`order` clause is modelled as `List.find?` (first match); `findOne` with
`order: createdAt DESC` is modelled as selecting the row of maximal `createdAt`.
Row updates address rows by primary key `id`.  The external `bcrypt` library is
modelled by an injective tagging function, and the `jsonwebtoken`/`ms` duration
strings used in this repository are mapped to their millisecond values.
-/

deriving instance DecidableEq for Except

/-- A row of the `otps` table (src/models/Otp.js): primary key `id`,
`userId`, 6-character `otp` code, `expiresAt` timestamp, `isUsed` flag, and the
`createdAt` timestamp added by Sequelize `timestamps: true`. -/
structure OtpRow where
  id : Nat
  userId : Nat
  otp : String
  expiresAt : Nat
  isUsed : Bool
  createdAt : Nat
deriving DecidableEq

/-- A row of the `refresh_tokens` table (src/models/RefreshToken.js): primary
key `id`, unique `token` string, owning `userId`, `expiresAt`, `isRevoked`. -/
structure RefreshTokenRow where
  id : Nat
  token : String
  userId : Nat
  expiresAt : Nat
  isRevoked : Bool
deriving DecidableEq

/-- A row of the `users` table: the fields read by the auth flows. -/
structure UserRow where
  id : Nat
  username : String
  email : String
  password : String
  phone : String
  roleId : Nat
  isActive : Bool
deriving DecidableEq

/-- The persistent store visible to the auth subsystem. -/
structure Store where
  users : List UserRow
  refreshTokens : List RefreshTokenRow
  otps : List OtpRow
deriving DecidableEq

/-- `this.userTypes.admin` in BaseController.js. -/
def userTypesAdmin : Nat := 1

/-- `this.userTypes.user` in BaseController.js. -/
def userTypesUser : Nat := 2

/-- One minute in milliseconds (JS `Date` arithmetic unit). -/
def minuteMs : Nat := 60000

/-- One day in milliseconds. -/
def dayMs : Nat := 86400000

/-- JWT payloads signed by this codebase: `generateToken` signs
`{id, type, validationCheck}`, `generatePasswordResetToken` signs
`{userId, email, type: 'password_reset'}`. -/
inductive JwtPayload where
  | auth (id : Nat) (type : Nat) (validationCheck : Bool)
  | passwordReset (userId : Nat) (email : String)
deriving DecidableEq

/-- A signed JWT: its payload together with the absolute expiry instant
(`iat + expiresIn`, in ms). -/
structure Jwt where
  payload : JwtPayload
  expiresAt : Nat
deriving DecidableEq

/-- Millisecond value of the `ms`-style duration strings that appear in this
repository (`expiresIn` arguments of `jwt.sign`). -/
def durationToMs (s : String) : Option Nat :=
  if s = "1h" then some (60 * minuteMs)
  else if s = "15m" then some (15 * minuteMs)
  else if s = "7d" then some (7 * dayMs)
  else if s = "365d" then some (365 * dayMs)
  else none

/-- The default value of the `duration` parameter of `generateToken`
(BaseController.js line 20: `duration = '365d'`). -/
def generateTokenDefaultDuration : String := "365d"

/-- `BaseController.generateToken(id, type, duration = '365d', validationCheck
= false)`: signs `{id, type, validationCheck}` with expiry `now + duration`. -/
def generateToken (now id type : Nat) (duration : String) (validationCheck : Bool) : Jwt :=
  { payload := JwtPayload.auth id type validationCheck
    expiresAt := now + (durationToMs duration).getD 0 }

/-- `BaseController.generatePasswordResetToken(userId, email, duration='15m')`. -/
def generatePasswordResetToken (now userId : Nat) (email : String) : Jwt :=
  { payload := JwtPayload.passwordReset userId email
    expiresAt := now + (durationToMs "15m").getD 0 }

/-- `BaseController.verifyToken(token)` = `jwt.verify`: succeeds with the
payload while the token is unexpired, throws (modelled as `none`) once
expired. -/
def verifyToken (now : Nat) (t : Jwt) : Option JwtPayload :=
  if now < t.expiresAt then some t.payload else none

/-- `BaseController.generateRefreshToken(userId, transaction, expiryDays = 7)`:
inserts a fresh row with `expiresAt = now + expiryDays` days, `isRevoked =
false`, and returns the raw token string.  The random 40-byte hex string and
the fresh primary key are passed in explicitly (`tok`, `rowId`). -/
def generateRefreshToken (userId : Nat) (tok : String) (rowId now expiryDays : Nat)
    (rts : List RefreshTokenRow) : String × List RefreshTokenRow :=
  (tok, rts ++ [{ id := rowId, token := tok, userId := userId
                  expiresAt := now + expiryDays * dayMs, isRevoked := false }])

/-- `BaseController.verifyRefreshToken(token)`: `findOne` on
`{token, isRevoked: false}`; `null` if absent or `now > expiresAt`. -/
def verifyRefreshToken (now : Nat) (token : String) (rts : List RefreshTokenRow) :
    Option RefreshTokenRow :=
  match rts.find? (fun r => r.token == token && r.isRevoked == false) with
  | none => none
  | some tokenDoc => if now > tokenDoc.expiresAt then none else some tokenDoc

/-- `BaseController.revokeRefreshToken(token)`: `findOne` on `{token}`, then
set `isRevoked := true` on the found row; returns whether a row was found. -/
def revokeRefreshToken (token : String) (rts : List RefreshTokenRow) :
    Bool × List RefreshTokenRow :=
  match rts.find? (fun r => r.token == token) with
  | none => (false, rts)
  | some tokenDoc =>
      (true, rts.map fun r => if r.id == tokenDoc.id then { r with isRevoked := true } else r)

/-- `BaseController.revokeAllUserRefreshTokens(userId)`: bulk update
`isRevoked := true` where `{userId, isRevoked: false}`. -/
def revokeAllUserRefreshTokens (userId : Nat) (rts : List RefreshTokenRow) :
    List RefreshTokenRow :=
  rts.map fun r =>
    if r.userId == userId && r.isRevoked == false then { r with isRevoked := true } else r

/-- Decimal digit characters of `n`, most significant first: the model of the
JavaScript `String(n)` conversion used in `createOtp`. -/
def decDigits (n : Nat) : List Char :=
  if _h : n < 10 then [Nat.digitChar n]
  else decDigits (n / 10) ++ [Nat.digitChar (n % 10)]
termination_by n
decreasing_by
  exact Nat.div_lt_self (by omega) (by omega)

/-- Model of `String.prototype.padStart(len, c)` on a character list. -/
def padStart (s : List Char) (len : Nat) (c : Char) : List Char :=
  List.replicate (len - s.length) c ++ s

/-- The numeric OTP value produced from a 24-bit draw:
`parseInt(buffer.toString('hex'), 16) % 1000000` in `createOtp`. -/
def otpValue (draw : Nat) : Nat := draw % 1000000

/-- The OTP code string produced from a 24-bit draw:
`String(draw % 1000000).padStart(6, '0')` in `createOtp`. -/
def otpString (draw : Nat) : String :=
  String.mk (padStart (decDigits (otpValue draw)) 6 '0')

/-- `BaseController.createOtp(userId, transaction, expiryMinutes = 5)`:
inserts `{userId, otp, expiresAt := now + expiryMinutes minutes, isUsed :=
false}` and returns the code.  `draw` is the random 24-bit value from
`crypto.randomBytes(3)`, `rowId` the fresh primary key; `createdAt := now`. -/
def createOtp (userId rowId now draw expiryMinutes : Nat) (otps : List OtpRow) :
    String × List OtpRow :=
  let otp := otpString draw
  (otp, otps ++ [{ id := rowId, userId := userId, otp := otp
                   expiresAt := now + expiryMinutes * minuteMs
                   isUsed := false, createdAt := now }])

/-- The where-clause of the `findOne` in `BaseController.verifyOtp`:
`{userId, otp, isUsed: false}`.  Note that the submitted code is part of the
filter. -/
def otpMatches (userId : Nat) (otp : String) (r : OtpRow) : Bool :=
  r.userId == userId && r.otp == otp && r.isUsed == false

/-- `order: [['createdAt', 'DESC']], findOne`: the row of maximal `createdAt`
among the candidates (on equal `createdAt` the database order is unspecified;
this model keeps the earlier row). -/
def mostRecent : List OtpRow → Option OtpRow
  | [] => none
  | r :: rs =>
    match mostRecent rs with
    | none => some r
    | some b => if b.createdAt > r.createdAt then some b else some r

/-- The `findOne` of `BaseController.verifyOtp`: most recent row matching
`{userId, otp, isUsed: false}`. -/
def findOtp (userId : Nat) (otp : String) (otps : List OtpRow) : Option OtpRow :=
  mostRecent (otps.filter (otpMatches userId otp))

/-- Set `isUsed := true` on the row with primary key `rowId`
(`otpRecord.update({ isUsed: true })`). -/
def markOtpUsed (rowId : Nat) (otps : List OtpRow) : List OtpRow :=
  otps.map fun r => if r.id == rowId then { r with isUsed := true } else r

/-- `BaseController.verifyOtp(userId, otp)` : returns the boolean result and
the updated `otps` table.  Absent row: `false`, unchanged.  Found but expired
(`now > expiresAt`): mark used, `false`.  Found and unexpired: mark used,
`true`. -/
def verifyOtp (now userId : Nat) (otp : String) (otps : List OtpRow) :
    Bool × List OtpRow :=
  match findOtp userId otp otps with
  | none => (false, otps)
  | some otpRecord =>
    if now > otpRecord.expiresAt then (false, markOtpUsed otpRecord.id otps)
    else (true, markOtpUsed otpRecord.id otps)

/-- Iterated `verifyOtp` calls at the given sequence of instants, threading the
`otps` table; returns the list of results and the final table. -/
def verifyOtpRepeat : List Nat → Nat → String → List OtpRow → List Bool × List OtpRow
  | [], _, _, otps => ([], otps)
  | t :: ts, userId, otp, otps =>
    ((verifyOtp t userId otp otps).1 ::
        (verifyOtpRepeat ts userId otp (verifyOtp t userId otp otps).2).1,
     (verifyOtpRepeat ts userId otp (verifyOtp t userId otp otps).2).2)

/-- Stand-in for the external `bcrypt.hash` (an injective one-way tag; the auth
flows only ever compare hashes for equality via `bcrypt.compare`). -/
def bcryptHash (p : String) : String := "bcrypt$" ++ p

/-- `UserAuthService.verifyPassword(plain, hashed)` = `bcrypt.compare`. -/
def verifyPassword (plain hashed : String) : Bool := bcryptHash plain == hashed

/-- `UserAuthService.findUserByEmail(email)`. -/
def findUserByEmail (email : String) (users : List UserRow) : Option UserRow :=
  users.find? (fun u => u.email == email)

/-- `UserAuthService.findUserById(id)`. -/
def findUserById (id : Nat) (users : List UserRow) : Option UserRow :=
  users.find? (fun u => u.id == id)

/-- `UserAuthService.updateUser(userId, { password: newPassword })`: `findByPk`
(throws `User not found` when absent, modelled as `none`), bcrypt-hash the new
password, update the row. -/
def updateUserPassword (userId : Nat) (newPassword : String) (users : List UserRow) :
    Option (List UserRow) :=
  match users.find? (fun u => u.id == userId) with
  | none => none
  | some _ =>
      some (users.map fun u =>
        if u.id == userId then { u with password := bcryptHash newPassword } else u)

/-- The error responses produced by the user auth controller endpoints
(src/controllers/user/authController.js). -/
inductive AuthError where
  | requiredFieldsMissing
  | invalidCredentials
  | invalidOrExpiredOtp
  | invalidOrExpiredRefreshToken
  | userNotFoundOrInactive
  | invalidOrExpiredToken
  | invalidToken
  | currentPasswordIncorrect
  | internalError
deriving DecidableEq

/-- The success payload of the `login` endpoint. -/
structure LoginOk where
  status : Nat
  accessToken : Jwt
  refreshToken : String
  userIsActive : Bool
  requireVerification : Bool
deriving DecidableEq

/-- `UserAuthController.login(email, password)` (authController.js lines
177-247).  `otpDraw`/`newOtpRowId` feed the OTP created on the inactive-account
path; `newRefreshTok`/`newRtRowId` feed `generateRefreshToken`.  Email dispatch
is an external side effect with no bearing on the store or the response. -/
def login (now : Nat) (email password : String) (otpDraw newOtpRowId : Nat)
    (newRefreshTok : String) (newRtRowId : Nat) (st : Store) :
    Except AuthError (LoginOk × Store) :=
  if email = "" || password = "" then .error .requiredFieldsMissing
  else
    match findUserByEmail email st.users with
    | none => .error .invalidCredentials
    | some user =>
      if !(verifyPassword password user.password) then .error .invalidCredentials
      else if !user.isActive then
        let newOtps := (createOtp user.id newOtpRowId now otpDraw 5 st.otps).2
        let accessToken := generateToken now user.id userTypesUser "1h" false
        let rt := generateRefreshToken user.id newRefreshTok newRtRowId now 7 st.refreshTokens
        .ok ({ status := 200, accessToken := accessToken, refreshToken := rt.1
               userIsActive := false, requireVerification := true },
             { st with otps := newOtps, refreshTokens := rt.2 })
      else
        let accessToken := generateToken now user.id userTypesUser "1h" false
        let rt := generateRefreshToken user.id newRefreshTok newRtRowId now 7 st.refreshTokens
        .ok ({ status := 200, accessToken := accessToken, refreshToken := rt.1
               userIsActive := user.isActive, requireVerification := false },
             { st with refreshTokens := rt.2 })

/-- The success payload of the `refreshToken` endpoint. -/
structure RefreshOk where
  accessToken : Jwt
  refreshToken : String
deriving DecidableEq

/-- `UserAuthController.refreshToken(refreshToken)` (authController.js lines
378-420): verify the stored token, re-check the owning account (role `user`,
active), revoke the presented token, issue a fresh access + refresh pair. -/
def refreshTokenOp (now : Nat) (refreshToken newTok : String) (newRtRowId : Nat)
    (st : Store) : Except AuthError (RefreshOk × Store) :=
  if refreshToken = "" then .error .requiredFieldsMissing
  else
    match verifyRefreshToken now refreshToken st.refreshTokens with
    | none => .error .invalidOrExpiredRefreshToken
    | some tokenDoc =>
      match findUserById tokenDoc.userId st.users with
      | none => .error .userNotFoundOrInactive
      | some user =>
        if user.roleId != userTypesUser || !user.isActive then .error .userNotFoundOrInactive
        else
          let rts1 := (revokeRefreshToken refreshToken st.refreshTokens).2
          let accessToken := generateToken now user.id userTypesUser "1h" false
          let rt := generateRefreshToken user.id newTok newRtRowId now 7 rts1
          .ok ({ accessToken := accessToken, refreshToken := rt.1 },
               { st with refreshTokens := rt.2 })

/-- `UserAuthController.resetPassword(token, newPassword)` (authController.js
lines 292-338): verify the reset token and its `password_reset` discriminator,
re-check the embedded email against the account, update the password hash, and
revoke all refresh tokens of the account.  `token = none` models an absent
`req.body.token`. -/
def resetPasswordOp (now : Nat) (token : Option Jwt) (newPassword : String)
    (st : Store) : Except AuthError Store :=
  match token with
  | none => .error .requiredFieldsMissing
  | some t =>
    if newPassword = "" then .error .requiredFieldsMissing
    else
      match verifyToken now t with
      | none => .error .invalidOrExpiredToken
      | some payload =>
        match payload with
        | JwtPayload.auth _ _ _ => .error .invalidOrExpiredToken
        | JwtPayload.passwordReset userId email =>
          match findUserById userId st.users with
          | none => .error .invalidToken
          | some user =>
            if user.email != email then .error .invalidToken
            else
              match updateUserPassword userId newPassword st.users with
              | none => .error .internalError
              | some newUsers =>
                .ok { st with users := newUsers
                              refreshTokens := revokeAllUserRefreshTokens userId st.refreshTokens }

/-- `UserAuthController.updatePassword(currentPassword, newPassword)`
(authController.js lines 428-462): check the current password against the
authenticated caller's stored hash (`req.user.password`, here `reqPw`), then
update only the password of user `reqId`. -/
def updatePasswordOp (reqId : Nat) (reqPw currentPassword newPassword : String)
    (st : Store) : Except AuthError Store :=
  if currentPassword = "" || newPassword = "" then .error .requiredFieldsMissing
  else if !(verifyPassword currentPassword reqPw) then .error .currentPasswordIncorrect
  else
    match updateUserPassword reqId newPassword st.users with
    | none => .error .internalError
    | some newUsers => .ok { st with users := newUsers }


/-- Number of 24-bit draws (`crypto.randomBytes(3)` values in `[0, 2^24)`)
that `createOtp`'s reduction maps to the numeric OTP value `c`: the
multiplicity of code `c` in the draw space. -/
def countDraws (c : Nat) : Nat :=
  ((Finset.range (2 ^ 24)).filter (fun b => otpValue b = c)).card

/-! ## General lemmas about the embedded operations -/

theorem otpMatches_iff {u : Nat} {c : String} {r : OtpRow} :
    otpMatches u c r = true ↔ r.userId = u ∧ r.otp = c ∧ r.isUsed = false := by
  simp [otpMatches, Bool.and_eq_true, and_assoc]

theorem mostRecent_spec (l : List OtpRow) :
    (l = [] ∧ mostRecent l = none) ∨
    ∃ r, mostRecent l = some r ∧ r ∈ l ∧ ∀ x ∈ l, x.createdAt ≤ r.createdAt := by
  induction l with
  | nil => left; exact ⟨rfl, rfl⟩
  | cons a xs ih =>
    right
    rcases ih with ⟨hnil, _⟩ | ⟨b, hb, hmem, hmax⟩
    · subst hnil
      refine ⟨a, by simp [mostRecent], by simp, by simp⟩
    · simp only [mostRecent, hb]
      by_cases hc : b.createdAt > a.createdAt
      · rw [if_pos hc]
        refine ⟨b, rfl, List.mem_cons_of_mem _ hmem, ?_⟩
        intro x hx
        rcases List.mem_cons.mp hx with h1 | h2
        · subst h1; omega
        · exact hmax x h2
      · rw [if_neg hc]
        refine ⟨a, rfl, List.mem_cons_self a xs, ?_⟩
        intro x hx
        rcases List.mem_cons.mp hx with h1 | h2
        · subst h1; exact Nat.le_refl _
        · have := hmax x h2; omega

theorem mostRecent_eq_none {l : List OtpRow} : mostRecent l = none ↔ l = [] := by
  rcases mostRecent_spec l with ⟨h1, h2⟩ | ⟨r, hr, _, _⟩
  · subst h1; exact ⟨fun _ => rfl, fun _ => rfl⟩
  · rw [hr]
    constructor
    · intro h; exact absurd h (by simp)
    · intro h; subst h; simp [mostRecent] at hr

theorem mostRecent_mem {l : List OtpRow} {r : OtpRow} (h : mostRecent l = some r) :
    r ∈ l := by
  rcases mostRecent_spec l with ⟨_, h2⟩ | ⟨b, hb, hmem, _⟩
  · rw [h2] at h; exact absurd h (by simp)
  · rw [hb] at h
    rw [Option.some.injEq] at h
    subst h
    exact hmem

theorem mostRecent_max {l : List OtpRow} {r : OtpRow} (h : mostRecent l = some r) :
    ∀ x ∈ l, x.createdAt ≤ r.createdAt := by
  rcases mostRecent_spec l with ⟨_, h2⟩ | ⟨b, hb, _, hmax⟩
  · rw [h2] at h; exact absurd h (by simp)
  · rw [hb] at h
    rw [Option.some.injEq] at h
    subst h
    exact hmax

theorem pairwise_created_eq {l : List OtpRow}
    (hp : l.Pairwise (fun a b => a.createdAt ≠ b.createdAt)) :
    ∀ {a b : OtpRow}, a ∈ l → b ∈ l → a.createdAt = b.createdAt → a = b := by
  induction l with
  | nil => intro a b ha; intro hb; exact absurd ha (by simp)
  | cons x xs ih =>
    intro a b ha hb hc
    rcases List.pairwise_cons.mp hp with ⟨hx, hxs⟩
    rcases List.mem_cons.mp ha with h1 | h2 <;> rcases List.mem_cons.mp hb with g1 | g2
    · rw [h1, g1]
    · subst h1; exact absurd hc (hx b g2)
    · subst g1; exact absurd hc.symm (hx a h2)
    · exact ih hxs h2 g2 hc

theorem findOtp_mem {u : Nat} {c : String} {otps : List OtpRow} {r : OtpRow}
    (h : findOtp u c otps = some r) :
    r ∈ otps ∧ r.userId = u ∧ r.otp = c ∧ r.isUsed = false := by
  have hmem := mostRecent_mem h
  rcases List.mem_filter.mp hmem with ⟨h1, h2⟩
  exact ⟨h1, otpMatches_iff.mp h2⟩

theorem mem_markOtpUsed_of_mem {rid : Nat} {l : List OtpRow} {r : OtpRow} (h : r ∈ l)
    (hid : r.id = rid) : { r with isUsed := true } ∈ markOtpUsed rid l := by
  unfold markOtpUsed
  have := List.mem_map_of_mem
    (fun x : OtpRow => if x.id == rid then { x with isUsed := true } else x) h
  simpa [hid] using this

theorem filter_matches_nil {u : Nat} {c : String} {l : List OtpRow}
    (h : l.filter (fun x => x.userId == u && x.isUsed == false) = []) :
    l.filter (otpMatches u c) = [] := by
  rw [List.filter_eq_nil_iff] at h ⊢
  intro a ha hmatch
  rcases otpMatches_iff.mp hmatch with ⟨h1, _, h3⟩
  exact h a ha (by simp [h1, h3])

theorem filter_matches_of_filter_unused {u : Nat} {c : String} {r : OtpRow} :
    ∀ {l : List OtpRow}, l.filter (fun x => x.userId == u && x.isUsed == false) = [r] →
      r.otp = c → l.filter (otpMatches u c) = [r] := by
  intro l
  induction l with
  | nil => intro h; intro hc; exact absurd h (by simp)
  | cons x xs ih =>
    intro h hc
    by_cases hx : (x.userId == u && x.isUsed == false) = true
    · rw [List.filter_cons, if_pos hx] at h
      rcases List.cons_eq_cons.mp h with ⟨hxr, hrest⟩
      subst hxr
      have hxm : otpMatches u c x = true := by
        rw [Bool.and_eq_true] at hx
        rcases hx with ⟨h1, h2⟩
        apply otpMatches_iff.mpr
        exact ⟨by simpa using h1, hc, by simpa using h2⟩
      rw [List.filter_cons, if_pos hxm, filter_matches_nil hrest]
    · rw [List.filter_cons, if_neg hx] at h
      have hxm : ¬(otpMatches u c x = true) := by
        intro hm
        rcases otpMatches_iff.mp hm with ⟨h1, _, h3⟩
        exact hx (by simp [h1, h3])
      rw [List.filter_cons, if_neg hxm]
      exact ih h hc

theorem verify_single_success {now u : Nat} {code : String} {r : OtpRow} {otps : List OtpRow}
    (hsingle : otps.filter (fun x => x.userId == u && x.isUsed == false) = [r])
    (hcode : r.otp = code) (hexp : now ≤ r.expiresAt) :
    verifyOtp now u code otps = (true, markOtpUsed r.id otps) := by
  have hfilt : otps.filter (otpMatches u code) = [r] :=
    filter_matches_of_filter_unused hsingle hcode
  unfold verifyOtp findOtp
  rw [hfilt]
  simp only [mostRecent]
  rw [if_neg (by omega)]

theorem marked_no_unused_match {u : Nat} {r : OtpRow} {otps : List OtpRow}
    (hsingle : otps.filter (fun x => x.userId == u && x.isUsed == false) = [r]) :
    ∀ c2 : String, (markOtpUsed r.id otps).filter (otpMatches u c2) = [] := by
  intro c2
  rw [List.filter_eq_nil_iff]
  intro a ha hmatch
  rcases otpMatches_iff.mp hmatch with ⟨h1, _, h3⟩
  unfold markOtpUsed at ha
  rcases List.mem_map.mp ha with ⟨y, hy, hmap⟩
  by_cases hid : (y.id == r.id) = true
  · rw [if_pos hid] at hmap
    rw [← hmap] at h3
    exact absurd h3 (by simp)
  · rw [if_neg hid] at hmap
    have hyin : y ∈ otps.filter (fun x => x.userId == u && x.isUsed == false) := by
      apply List.mem_filter.mpr
      refine ⟨hy, ?_⟩
      rw [hmap]
      simp [h1, h3]
    rw [hsingle] at hyin
    rw [List.mem_singleton] at hyin
    subst hyin
    simp at hid

theorem expired_preserved {now u : Nat} {code : String} {rid : Nat} {l : List OtpRow}
    (h : ∀ x ∈ l, x.userId = u → x.otp = code → x.isUsed = false → x.expiresAt < now) :
    ∀ x ∈ markOtpUsed rid l, x.userId = u → x.otp = code → x.isUsed = false →
      x.expiresAt < now := by
  intro x hx h1 h2 h3
  unfold markOtpUsed at hx
  rcases List.mem_map.mp hx with ⟨y, hy, hmap⟩
  by_cases hid : (y.id == rid) = true
  · rw [if_pos hid] at hmap
    rw [← hmap] at h3
    exact absurd h3 (by simp)
  · rw [if_neg hid] at hmap
    subst hmap
    exact h y hy h1 h2 h3

theorem verify_false_of_all_expired {t now u : Nat} {code : String} {l : List OtpRow}
    (hle : now ≤ t)
    (h : ∀ x ∈ l, x.userId = u → x.otp = code → x.isUsed = false → x.expiresAt < now) :
    (verifyOtp t u code l).1 = false ∧
    (∀ x ∈ (verifyOtp t u code l).2, x.userId = u → x.otp = code → x.isUsed = false →
      x.expiresAt < now) := by
  cases hf : findOtp u code l with
  | none =>
    unfold verifyOtp
    rw [hf]
    exact ⟨rfl, h⟩
  | some b =>
    rcases findOtp_mem hf with ⟨hbmem, hb1, hb2, hb3⟩
    have hbe : b.expiresAt < now := h b hbmem hb1 hb2 hb3
    have hred : verifyOtp t u code l = (false, markOtpUsed b.id l) := by
      unfold verifyOtp
      simp only [hf]
      rw [if_pos (by omega)]
    rw [hred]
    exact ⟨rfl, expired_preserved h⟩

theorem repeat_all_false {u : Nat} {code : String} {now : Nat} :
    ∀ (ts : List Nat) (l : List OtpRow),
      (∀ x ∈ l, x.userId = u → x.otp = code → x.isUsed = false → x.expiresAt < now) →
      (∀ t ∈ ts, now ≤ t) →
      ∀ b ∈ (verifyOtpRepeat ts u code l).1, b = false := by
  intro ts
  induction ts with
  | nil =>
    intro l h ht b hb
    exact absurd hb (by simp [verifyOtpRepeat])
  | cons t ts ih =>
    intro l h ht b hb
    have hle : now ≤ t := ht t (List.mem_cons_self t ts)
    have hstep := verify_false_of_all_expired hle h
    simp only [verifyOtpRepeat] at hb
    rcases List.mem_cons.mp hb with h1 | h2
    · rw [h1]; exact hstep.1
    · exact ih (verifyOtp t u code l).2 hstep.2
        (fun t2 ht2 => ht t2 (List.mem_cons_of_mem _ ht2)) b h2

/-! ## Claim theorems -/

/-- Claim C1, counterexample: in `BaseController.verifyOtp` the submitted code
is part of the `findOne` where-clause, so with two unused unexpired rows for
account 7 (older row code `111111`, newer row code `222222`) the call
submitting `111111` succeeds even though `111111` is not the code of the most
recently created unused row for the account. -/
theorem c1_counterexample :
    (verifyOtp 50 7 "111111"
        [⟨1, 7, "111111", 100, false, 10⟩, ⟨2, 7, "222222", 100, false, 20⟩]).1 = true ∧
    mostRecent (List.filter (fun x => x.userId == 7 && x.isUsed == false)
        [⟨1, 7, "111111", 100, false, 10⟩, ⟨2, 7, "222222", 100, false, 20⟩]) =
      some ⟨2, 7, "222222", 100, false, 20⟩ ∧
    ("111111" : String) ≠ "222222" := by
  decide

/-- Claim C1, amended: `verifyOtp` succeeds exactly when the account has an
unused OTP row bearing the submitted code that is unexpired and most recently
created among the unused rows bearing that code; an older unused matching row
is therefore accepted whenever no newer unused row carries the same code
(creation times of candidate rows assumed pairwise distinct). -/
theorem c1_amended (now u : Nat) (code : String) (otps : List OtpRow)
    (hdist : (otps.filter (otpMatches u code)).Pairwise
      (fun a b => a.createdAt ≠ b.createdAt)) :
    (verifyOtp now u code otps).1 = true ↔
      ∃ r, r ∈ otps ∧ otpMatches u code r = true ∧ now ≤ r.expiresAt ∧
        ∀ x ∈ otps, otpMatches u code x = true → x.createdAt ≤ r.createdAt := by
  constructor
  · intro h
    unfold verifyOtp at h
    cases hf : findOtp u code otps with
    | none => rw [hf] at h; exact absurd h (by simp)
    | some b =>
      simp only [hf] at h
      by_cases hnb : now > b.expiresAt
      · rw [if_pos hnb] at h; exact absurd h (by simp)
      · refine ⟨b, (findOtp_mem hf).1, ?_, by omega, ?_⟩
        · have := mostRecent_mem hf
          exact (List.mem_filter.mp this).2
        · intro x hx hxm
          exact mostRecent_max hf x (List.mem_filter.mpr ⟨hx, hxm⟩)
  · rintro ⟨r, hrmem, hrm, hrexp, hrmax⟩
    have hrfilt : r ∈ otps.filter (otpMatches u code) := List.mem_filter.mpr ⟨hrmem, hrm⟩
    cases hf : mostRecent (otps.filter (otpMatches u code)) with
    | none =>
      rw [mostRecent_eq_none.mp hf] at hrfilt
      exact absurd hrfilt (by simp)
    | some b =>
      have hbfilt := mostRecent_mem hf
      have hble : b.createdAt ≤ r.createdAt := by
        rcases List.mem_filter.mp hbfilt with ⟨hb1, hb2⟩
        exact hrmax b hb1 hb2
      have hrle : r.createdAt ≤ b.createdAt := mostRecent_max hf r hrfilt
      have hbr : b = r := pairwise_created_eq hdist hbfilt hrfilt (by omega)
      unfold verifyOtp findOtp
      simp only [hf, hbr]
      rw [if_neg (by omega)]

/-- Witness for C1 amended at a concrete store. -/
theorem c1_witness :
    (verifyOtp 50 7 "111111" [⟨1, 7, "111111", 100, false, 10⟩]).1 = true :=
  (c1_amended 50 7 "111111" [⟨1, 7, "111111", 100, false, 10⟩] (by decide)).mpr
    ⟨⟨1, 7, "111111", 100, false, 10⟩, by decide, by decide, by decide, by decide⟩

/-- Claim C3: for an account whose only unused OTP row is `r`, unexpired, with
matching code, `verifyOtp` succeeds and marks `r` used, and every subsequent
call with the same code fails and leaves the table unchanged. -/
theorem c3_otp_single_use (now u : Nat) (code : String) (r : OtpRow) (otps : List OtpRow)
    (hsingle : otps.filter (fun x => x.userId == u && x.isUsed == false) = [r])
    (hcode : r.otp = code) (hexp : now ≤ r.expiresAt) :
    verifyOtp now u code otps = (true, markOtpUsed r.id otps) ∧
    ({ r with isUsed := true } : OtpRow) ∈ markOtpUsed r.id otps ∧
    ∀ now2, verifyOtp now2 u code (markOtpUsed r.id otps) = (false, markOtpUsed r.id otps) := by
  refine ⟨verify_single_success hsingle hcode hexp, ?_, ?_⟩
  · have hrmem : r ∈ otps := by
      have hm : r ∈ otps.filter (fun x => x.userId == u && x.isUsed == false) := by
        rw [hsingle]
        exact List.mem_singleton.mpr rfl
      exact (List.mem_filter.mp hm).1
    exact mem_markOtpUsed_of_mem hrmem rfl
  · intro now2
    unfold verifyOtp findOtp
    rw [marked_no_unused_match hsingle code]
    rfl

/-- Witness for C3 at a concrete store. -/
theorem c3_witness :
    verifyOtp 50 7 "123456" [⟨1, 7, "123456", 100, false, 10⟩] =
      (true, markOtpUsed 1 [⟨1, 7, "123456", 100, false, 10⟩]) ∧
    verifyOtp 60 7 "123456" (markOtpUsed 1 [⟨1, 7, "123456", 100, false, 10⟩]) =
      (false, markOtpUsed 1 [⟨1, 7, "123456", 100, false, 10⟩]) := by
  have h := c3_otp_single_use 50 7 "123456" ⟨1, 7, "123456", 100, false, 10⟩
      [⟨1, 7, "123456", 100, false, 10⟩] (by decide) (by decide) (by decide)
  exact ⟨h.1, h.2.2 60⟩

/-- Claim C4: when every unused OTP row of the account bearing the submitted
code is past its expiry, `verifyOtp` marks the found row used and fails, and
every later attempt with the same code (at any instant not before `now`) also
fails, without any new code having been issued. -/
theorem c4_expired_otp_burned (now u : Nat) (code : String) (r : OtpRow) (otps : List OtpRow)
    (hfound : findOtp u code otps = some r)
    (hallexp : ∀ x ∈ otps, x.userId = u → x.otp = code → x.isUsed = false →
      x.expiresAt < now) :
    verifyOtp now u code otps = (false, markOtpUsed r.id otps) ∧
    ({ r with isUsed := true } : OtpRow) ∈ markOtpUsed r.id otps ∧
    ∀ ts : List Nat, (∀ t ∈ ts, now ≤ t) →
      ∀ b ∈ (verifyOtpRepeat ts u code (markOtpUsed r.id otps)).1, b = false := by
  rcases findOtp_mem hfound with ⟨hrmem, h1, h2, h3⟩
  have hre : r.expiresAt < now := hallexp r hrmem h1 h2 h3
  refine ⟨?_, mem_markOtpUsed_of_mem hrmem rfl, ?_⟩
  · unfold verifyOtp
    simp only [hfound]
    rw [if_pos (by omega)]
  · intro ts hts
    exact repeat_all_false ts _ (expired_preserved hallexp) hts

/-- Witness for C4 at a concrete store. -/
theorem c4_witness :
    verifyOtp 50 7 "123456" [⟨1, 7, "123456", 40, false, 10⟩] =
      (false, markOtpUsed 1 [⟨1, 7, "123456", 40, false, 10⟩]) ∧
    (verifyOtpRepeat [60, 70] 7 "123456"
        (markOtpUsed 1 [⟨1, 7, "123456", 40, false, 10⟩])).1.getD 0 false = false := by
  have h := c4_expired_otp_burned 50 7 "123456" ⟨1, 7, "123456", 40, false, 10⟩
      [⟨1, 7, "123456", 40, false, 10⟩] (by decide) (by decide)
  exact ⟨h.1, h.2.2 [60, 70] (by decide) _ (by decide)⟩

/-- Claim C5, counterexample: account 7 holds the unused unexpired row
`⟨1, 7, "111111", 100, false, 10⟩`; submitting the different code `222222`
fails, yet the OTP table does change — the older expired unused row bearing
`222222` is burned — so "leaves every OTP row's isUsed flag unchanged" is
false. -/
theorem c5_counterexample :
    ((⟨1, 7, "111111", 100, false, 10⟩ : OtpRow) ∈
        ([⟨1, 7, "111111", 100, false, 10⟩, ⟨2, 7, "222222", 50, false, 5⟩] : List OtpRow) ∧
      (60 : Nat) ≤ (100 : Nat) ∧ ("222222" : String) ≠ "111111") ∧
    (verifyOtp 60 7 "222222"
        [⟨1, 7, "111111", 100, false, 10⟩, ⟨2, 7, "222222", 50, false, 5⟩]).1 = false ∧
    (verifyOtp 60 7 "222222"
        [⟨1, 7, "111111", 100, false, 10⟩, ⟨2, 7, "222222", 50, false, 5⟩]).2 ≠
      [⟨1, 7, "111111", 100, false, 10⟩, ⟨2, 7, "222222", 50, false, 5⟩] := by
  decide

/-- Claim C5, amended: when the submitted code matches no unused row of the
account at all, `verifyOtp` fails and leaves the OTP table fully unchanged,
and a later attempt with the correct code of the single outstanding unused
row, before its expiry, still succeeds.  (A mismatching submission may still
burn an older expired unused row that happens to bear the submitted code.) -/
theorem c5_amended (now now2 u : Nat) (code codeWrong : String) (r : OtpRow)
    (otps : List OtpRow)
    (hnomatch : ∀ x ∈ otps, x.userId = u → x.isUsed = false → x.otp ≠ codeWrong)
    (hsingle : otps.filter (fun x => x.userId == u && x.isUsed == false) = [r])
    (hcode : r.otp = code) (hexp : now2 ≤ r.expiresAt) :
    verifyOtp now u codeWrong otps = (false, otps) ∧
    (verifyOtp now2 u code otps).1 = true := by
  constructor
  · have hfilt : otps.filter (otpMatches u codeWrong) = [] := by
      rw [List.filter_eq_nil_iff]
      intro a ha hm
      rcases otpMatches_iff.mp hm with ⟨g1, g2, g3⟩
      exact absurd g2 (hnomatch a ha g1 g3)
    unfold verifyOtp findOtp
    rw [hfilt]
    rfl
  · rw [verify_single_success hsingle hcode hexp]

/-- Witness for C5 amended at a concrete store. -/
theorem c5_witness :
    verifyOtp 50 7 "999999" [⟨1, 7, "111111", 100, false, 10⟩] =
      (false, [⟨1, 7, "111111", 100, false, 10⟩]) ∧
    (verifyOtp 60 7 "111111" [⟨1, 7, "111111", 100, false, 10⟩]).1 = true := by
  have h := c5_amended 50 60 7 "111111" "999999" ⟨1, 7, "111111", 100, false, 10⟩
      [⟨1, 7, "111111", 100, false, 10⟩] (by decide) (by decide) (by decide) (by decide)
  exact h

theorem revoke_marks {tok : String} {rts : List RefreshTokenRow}
    (huniq : ∀ x ∈ rts, ∀ y ∈ rts, x.token = y.token → x = y) :
    ∀ r ∈ (revokeRefreshToken tok rts).2, r.token = tok → r.isRevoked = true := by
  intro r hr htok
  unfold revokeRefreshToken at hr
  cases hf : rts.find? (fun x => x.token == tok) with
  | none =>
    rw [hf] at hr
    have hrm : r ∈ rts := hr
    have := List.find?_eq_none.mp hf r hrm
    simp [htok] at this
  | some d =>
    rw [hf] at hr
    have hr2 : r ∈ rts.map (fun x =>
        if x.id == d.id then { x with isRevoked := true } else x) := hr
    rcases List.mem_map.mp hr2 with ⟨y, hy, hmap⟩
    have hd : d ∈ rts := List.mem_of_find?_eq_some hf
    have hdt : d.token = tok := by
      have := List.find?_some hf
      simpa using this
    by_cases hid : (y.id == d.id) = true
    · rw [if_pos hid] at hmap
      rw [← hmap]
    · rw [if_neg hid] at hmap
      subst hmap
      have hyd : y = d := huniq y hy d hd (htok.trans hdt.symm)
      rw [hyd] at hid
      simp at hid

theorem refreshTokenOp_ok {now : Nat} {tok newTok : String} {rid : Nat} {st st' : Store}
    {res : RefreshOk}
    (h : refreshTokenOp now tok newTok rid st = .ok (res, st')) :
    tok ≠ "" ∧ res.refreshToken = newTok ∧ st'.users = st.users ∧ st'.otps = st.otps ∧
    ∃ uid : Nat,
      st'.refreshTokens = (revokeRefreshToken tok st.refreshTokens).2 ++
        [{ id := rid, token := newTok, userId := uid
           expiresAt := now + 7 * dayMs, isRevoked := false }] := by
  unfold refreshTokenOp at h
  split at h
  · exact absurd h (by simp)
  · rename_i htok
    split at h
    · exact absurd h (by simp)
    · rename_i tokenDoc hv
      split at h
      · exact absurd h (by simp)
      · rename_i user hu
        split at h
        · exact absurd h (by simp)
        · rw [Except.ok.injEq, Prod.mk.injEq] at h
          obtain ⟨hres, hst⟩ := h
          refine ⟨by simpa using htok, ?_, ?_, ?_, ⟨user.id, ?_⟩⟩
          · rw [← hres]
            rfl
          · rw [← hst]
          · rw [← hst]
          · rw [← hst]
            rfl

/-- Claim C2: a successful refresh revokes the presented refresh token and
returns the fresh token string, and a second refresh call presenting the same
token string fails with the invalid/expired refresh-token error.  Token
strings are unique in the store (database unique constraint), and the fresh
random token differs from the presented one. -/
theorem c2_refresh_rotation (now now2 : Nat) (tok newTok newTok2 : String)
    (rid rid2 : Nat) (st st' : Store) (res : RefreshOk)
    (huniq : ∀ x ∈ st.refreshTokens, ∀ y ∈ st.refreshTokens, x.token = y.token → x = y)
    (hne : newTok ≠ tok)
    (h : refreshTokenOp now tok newTok rid st = .ok (res, st')) :
    res.refreshToken = newTok ∧
    (∀ r ∈ st'.refreshTokens, r.token = tok → r.isRevoked = true) ∧
    refreshTokenOp now2 tok newTok2 rid2 st' = .error .invalidOrExpiredRefreshToken := by
  obtain ⟨htok, hres, husers, hotps, uid, hrts⟩ := refreshTokenOp_ok h
  have hmark : ∀ r ∈ st'.refreshTokens, r.token = tok → r.isRevoked = true := by
    intro r hr htk
    rw [hrts] at hr
    rcases List.mem_append.mp hr with h1 | h2
    · exact revoke_marks huniq r h1 htk
    · rw [List.mem_singleton] at h2
      rw [h2] at htk
      exact absurd htk hne
  refine ⟨hres, hmark, ?_⟩
  have hvnone : verifyRefreshToken now2 tok st'.refreshTokens = none := by
    unfold verifyRefreshToken
    have hfn : st'.refreshTokens.find?
        (fun r => r.token == tok && r.isRevoked == false) = none := by
      rw [List.find?_eq_none]
      intro x hx hpx
      rw [Bool.and_eq_true] at hpx
      have hxt : x.token = tok := by simpa using hpx.1
      have hxr : x.isRevoked = false := by simpa using hpx.2
      rw [hmark x hx hxt] at hxr
      exact absurd hxr (by simp)
    rw [hfn]
  unfold refreshTokenOp
  rw [if_neg (by simpa using htok)]
  simp only [hvnone]

/-- Witness for C2 at a concrete store. -/
theorem c2_witness :
    refreshTokenOp 10 "tokA" "tokB2" 3
      { users := [⟨7, "u", "e@x", "bcrypt$pw", "", 2, true⟩]
        refreshTokens := [⟨1, "tokA", 7, 1000000, true⟩, ⟨2, "tokB", 7, 5 + 7 * dayMs, false⟩]
        otps := [] } = .error .invalidOrExpiredRefreshToken :=
  (c2_refresh_rotation 5 10 "tokA" "tokB" "tokB2" 2 3
      { users := [⟨7, "u", "e@x", "bcrypt$pw", "", 2, true⟩]
        refreshTokens := [⟨1, "tokA", 7, 1000000, false⟩], otps := [] }
      { users := [⟨7, "u", "e@x", "bcrypt$pw", "", 2, true⟩]
        refreshTokens := [⟨1, "tokA", 7, 1000000, true⟩, ⟨2, "tokB", 7, 5 + 7 * dayMs, false⟩]
        otps := [] }
      { accessToken := generateToken 5 7 2 "1h" false, refreshToken := "tokB" }
      (by decide) (by decide) (by decide)).2.2

theorem revokeAll_marks (uid : Nat) (rts : List RefreshTokenRow) :
    ∀ r ∈ revokeAllUserRefreshTokens uid rts, r.userId = uid → r.isRevoked = true := by
  intro r hr huid
  unfold revokeAllUserRefreshTokens at hr
  rcases List.mem_map.mp hr with ⟨y, hy, hmap⟩
  by_cases hc : (y.userId == uid && y.isRevoked == false) = true
  · rw [if_pos hc] at hmap
    rw [← hmap]
  · rw [if_neg hc] at hmap
    subst hmap
    cases hyr : y.isRevoked with
    | true => rfl
    | false => exact absurd (by simp [huid, hyr]) hc

theorem revokeAll_shape (uid : Nat) (rts : List RefreshTokenRow) :
    ∀ r ∈ revokeAllUserRefreshTokens uid rts, ∃ y ∈ rts,
      r.token = y.token ∧ r.userId = y.userId := by
  intro r hr
  unfold revokeAllUserRefreshTokens at hr
  rcases List.mem_map.mp hr with ⟨y, hy, hmap⟩
  refine ⟨y, hy, ?_⟩
  by_cases hc : (y.userId == uid && y.isRevoked == false) = true
  · rw [if_pos hc] at hmap
    rw [← hmap]
    exact ⟨rfl, rfl⟩
  · rw [if_neg hc] at hmap
    rw [← hmap]
    exact ⟨rfl, rfl⟩

theorem resetPasswordOp_ok {now texp uid : Nat} {em newPassword : String} {st st' : Store}
    (h : resetPasswordOp now
        (some ⟨JwtPayload.passwordReset uid em, texp⟩) newPassword st = .ok st') :
    st'.refreshTokens = revokeAllUserRefreshTokens uid st.refreshTokens ∧
    st'.otps = st.otps := by
  simp only [resetPasswordOp, verifyToken] at h
  split at h
  · exact absurd h (by simp)
  · split at h
    · exact absurd h (by simp)
    · rename_i payload hpay
      split at h
      · exact absurd h (by simp)
      · rename_i pid pem
        split at h
        · exact absurd h (by simp)
        · rename_i user hfu
          split at h
          · exact absurd h (by simp)
          · split at h
            · exact absurd h (by simp)
            · rename_i newUsers hupd
              rw [Except.ok.injEq] at h
              have hpid : pid = uid := by
                by_cases hlt : now < texp
                · rw [if_pos hlt, Option.some.injEq] at hpay
                  injection hpay with h1 h2
                  exact h1.symm
                · rw [if_neg hlt] at hpay
                  exact absurd hpay (by simp)
              rw [← h, hpid]
              exact ⟨rfl, rfl⟩

/-- Claim C6: a successful `resetPassword` leaves every refresh-token row of
the target account revoked, so a subsequent refresh call presenting any token
string owned by that account before the reset fails with the invalid/expired
refresh-token error (token strings unique in the store). -/
theorem c6_reset_revokes_all (now now2 texp uid : Nat) (em newPassword tok newTok : String)
    (rid : Nat) (st st' : Store)
    (huniq : ∀ x ∈ st.refreshTokens, ∀ y ∈ st.refreshTokens, x.token = y.token → x = y)
    (htokne : tok ≠ "")
    (hrow : ∃ row ∈ st.refreshTokens, row.token = tok ∧ row.userId = uid)
    (h : resetPasswordOp now
        (some ⟨JwtPayload.passwordReset uid em, texp⟩) newPassword st = .ok st') :
    (∀ r ∈ st'.refreshTokens, r.userId = uid → r.isRevoked = true) ∧
    refreshTokenOp now2 tok newTok rid st' = .error .invalidOrExpiredRefreshToken := by
  obtain ⟨hrts, hotps⟩ := resetPasswordOp_ok h
  have hmark : ∀ r ∈ st'.refreshTokens, r.userId = uid → r.isRevoked = true := by
    intro r hr huid
    rw [hrts] at hr
    exact revokeAll_marks uid st.refreshTokens r hr huid
  refine ⟨hmark, ?_⟩
  obtain ⟨row, hrowmem, hrowtok, hrowuid⟩ := hrow
  have hvnone : verifyRefreshToken now2 tok st'.refreshTokens = none := by
    unfold verifyRefreshToken
    have hfn : st'.refreshTokens.find?
        (fun r => r.token == tok && r.isRevoked == false) = none := by
      rw [List.find?_eq_none]
      intro x hx hpx
      rw [Bool.and_eq_true] at hpx
      have hxt : x.token = tok := by simpa using hpx.1
      have hxr : x.isRevoked = false := by simpa using hpx.2
      have hx0 : x ∈ st'.refreshTokens := hx
      rw [hrts] at hx
      rcases revokeAll_shape uid st.refreshTokens x hx with ⟨y, hy, hyt, hyu⟩
      have hytok : y.token = row.token := by
        rw [← hyt, hxt, hrowtok]
      have hyrow : y = row := huniq y hy row hrowmem hytok
      have hxuid : x.userId = uid := by
        rw [hyu, hyrow]
        exact hrowuid
      rw [hmark x hx0 hxuid] at hxr
      exact absurd hxr (by simp)
    rw [hfn]
  unfold refreshTokenOp
  rw [if_neg htokne]
  simp only [hvnone]

/-- Witness for C6 at a concrete store. -/
theorem c6_witness :
    refreshTokenOp 20 "tokA" "tokC" 9
      { users := [⟨7, "u", "e@x", "bcrypt$new", "", 2, true⟩]
        refreshTokens := [⟨1, "tokA", 7, 1000000, true⟩, ⟨2, "tokB", 7, 2000000, true⟩]
        otps := [] } = .error .invalidOrExpiredRefreshToken :=
  (c6_reset_revokes_all 10 20 50 7 "e@x" "new" "tokA" "tokC" 9
      { users := [⟨7, "u", "e@x", "bcrypt$old", "", 2, true⟩]
        refreshTokens := [⟨1, "tokA", 7, 1000000, false⟩, ⟨2, "tokB", 7, 2000000, false⟩]
        otps := [] }
      { users := [⟨7, "u", "e@x", "bcrypt$new", "", 2, true⟩]
        refreshTokens := [⟨1, "tokA", 7, 1000000, true⟩, ⟨2, "tokB", 7, 2000000, true⟩]
        otps := [] }
      (by decide) (by decide)
      ⟨⟨1, "tokA", 7, 1000000, false⟩, by decide, by decide, by decide⟩
      (by decide)).2

/-- Claim C7: login with correct credentials (matching stored e-mail and
password hash) on an inactive account is not an error: it returns status 200
with `requireVerification = true`, a fresh one-hour access token and a fresh
refresh token, and appends a new five-minute OTP row for the account. -/
theorem c7_login_inactive (now : Nat) (email password : String) (draw oid : Nat)
    (ntok : String) (nrid : Nat) (st : Store) (u : UserRow)
    (hemail : email ≠ "") (hpassword : password ≠ "")
    (hfind : findUserByEmail email st.users = some u)
    (hpw : verifyPassword password u.password = true)
    (hinactive : u.isActive = false) :
    login now email password draw oid ntok nrid st =
      .ok ({ status := 200, accessToken := generateToken now u.id userTypesUser "1h" false
             refreshToken := ntok, userIsActive := false, requireVerification := true },
           { st with
               otps := st.otps ++
                 [{ id := oid, userId := u.id, otp := otpString draw
                    expiresAt := now + 5 * minuteMs, isUsed := false, createdAt := now }]
               refreshTokens := st.refreshTokens ++
                 [{ id := nrid, token := ntok, userId := u.id
                    expiresAt := now + 7 * dayMs, isRevoked := false }] }) := by
  unfold login
  rw [if_neg (by simp [hemail, hpassword])]
  simp only [hfind, hpw, hinactive]
  simp [createOtp, generateRefreshToken]

/-- Witness for C7 at a concrete store. -/
theorem c7_witness :
    login 100 "e@x" "pw" 5 11 "rt1" 12
      { users := [⟨7, "u", "e@x", "bcrypt$pw", "", 2, false⟩]
        refreshTokens := [], otps := [] } =
      .ok ({ status := 200, accessToken := generateToken 100 7 userTypesUser "1h" false
             refreshToken := "rt1", userIsActive := false, requireVerification := true },
           { users := [⟨7, "u", "e@x", "bcrypt$pw", "", 2, false⟩]
             refreshTokens := [⟨12, "rt1", 7, 100 + 7 * dayMs, false⟩]
             otps := [⟨11, 7, otpString 5, 100 + 5 * minuteMs, false, 100⟩] }) := by
  have h := c7_login_inactive 100 "e@x" "pw" 5 11 "rt1" 12
      { users := [⟨7, "u", "e@x", "bcrypt$pw", "", 2, false⟩]
        refreshTokens := [], otps := [] }
      ⟨7, "u", "e@x", "bcrypt$pw", "", 2, false⟩
      (by decide) (by decide) (by decide) (by decide) (by decide)
  exact h

theorem updateUserPassword_eq {reqId : Nat} {newPw : String} {users newUsers : List UserRow}
    (h : updateUserPassword reqId newPw users = some newUsers) :
    newUsers = users.map fun v =>
      if v.id == reqId then { v with password := bcryptHash newPw } else v := by
  unfold updateUserPassword at h
  split at h
  · exact absurd h (by simp)
  · rw [Option.some.injEq] at h
    exact h.symm

theorem updatePasswordOp_ok {reqId : Nat} {reqPw cur newPw : String} {st st' : Store}
    (h : updatePasswordOp reqId reqPw cur newPw st = .ok st') :
    st'.users = st.users.map (fun v =>
      if v.id == reqId then { v with password := bcryptHash newPw } else v) ∧
    st'.refreshTokens = st.refreshTokens ∧ st'.otps = st.otps := by
  unfold updatePasswordOp at h
  split at h
  · exact absurd h (by simp)
  · split at h
    · exact absurd h (by simp)
    · split at h
      · exact absurd h (by simp)
      · rename_i newUsers hupd
        rw [Except.ok.injEq] at h
        rw [← h]
        exact ⟨updateUserPassword_eq hupd, rfl, rfl⟩

theorem findUserById_password_map (uid reqId : Nat) (pw : String) (users : List UserRow) :
    findUserById uid (users.map fun v =>
        if v.id == reqId then { v with password := bcryptHash pw } else v) =
      (findUserById uid users).map fun v =>
        if v.id == reqId then { v with password := bcryptHash pw } else v := by
  have hpred : ((fun u : UserRow => u.id == uid) ∘ fun v : UserRow =>
      if v.id == reqId then { v with password := bcryptHash pw } else v) =
      fun v : UserRow => v.id == uid := by
    funext v
    by_cases hv : (v.id == reqId) = true
    · simp [Function.comp, hv]
    · simp [Function.comp, hv]
  unfold findUserById
  rw [List.find?_map, hpred]

theorem password_map_fields (reqId : Nat) (pw : String) (v : UserRow) :
    (if v.id == reqId then { v with password := bcryptHash pw } else v).id = v.id ∧
    (if v.id == reqId then { v with password := bcryptHash pw } else v).roleId = v.roleId ∧
    (if v.id == reqId then { v with password := bcryptHash pw } else v).isActive
      = v.isActive := by
  by_cases hv : (v.id == reqId) = true
  · rw [if_pos hv]
    exact ⟨rfl, rfl, rfl⟩
  · rw [if_neg hv]
    exact ⟨rfl, rfl, rfl⟩

theorem refreshTokenOp_ok_elim {now : Nat} {tok newTok : String} {rid : Nat}
    {st st' : Store} {res : RefreshOk}
    (h : refreshTokenOp now tok newTok rid st = .ok (res, st')) :
    tok ≠ "" ∧ ∃ tokenDoc user,
      verifyRefreshToken now tok st.refreshTokens = some tokenDoc ∧
      findUserById tokenDoc.userId st.users = some user ∧
      (user.roleId != userTypesUser || !user.isActive) = false ∧
      res = { accessToken := generateToken now user.id userTypesUser "1h" false
              refreshToken := newTok } ∧
      st' = { st with refreshTokens :=
        (generateRefreshToken user.id newTok rid now 7
          (revokeRefreshToken tok st.refreshTokens).2).2 } := by
  unfold refreshTokenOp at h
  split at h
  · exact absurd h (by simp)
  · rename_i htok
    split at h
    · exact absurd h (by simp)
    · rename_i tokenDoc hv
      split at h
      · exact absurd h (by simp)
      · rename_i user hu
        split at h
        · exact absurd h (by simp)
        · rename_i hcond
          rw [Except.ok.injEq, Prod.mk.injEq] at h
          obtain ⟨hres, hst⟩ := h
          refine ⟨by simpa using htok, tokenDoc, user, hv, hu, ?_, hres.symm, hst.symm⟩
          rw [Bool.not_eq_true] at hcond
          exact hcond

theorem refreshTokenOp_ok_intro {now : Nat} {tok newTok : String} {rid : Nat} {st : Store}
    {tokenDoc : RefreshTokenRow} {user : UserRow}
    (htok : tok ≠ "")
    (hv : verifyRefreshToken now tok st.refreshTokens = some tokenDoc)
    (hu : findUserById tokenDoc.userId st.users = some user)
    (hcond : (user.roleId != userTypesUser || !user.isActive) = false) :
    refreshTokenOp now tok newTok rid st =
      .ok ({ accessToken := generateToken now user.id userTypesUser "1h" false
             refreshToken := newTok },
           { st with refreshTokens :=
              (generateRefreshToken user.id newTok rid now 7
                (revokeRefreshToken tok st.refreshTokens).2).2 }) := by
  unfold refreshTokenOp
  rw [if_neg htok]
  simp only [hv, hu]
  rw [if_neg (by simp [hcond])]
  rfl

/-- Claim C10: a successful `updatePassword` (authenticated change with a
correct current password) rewrites only the caller's stored password hash: the
refresh-token and OTP tables are untouched, every other user row is unchanged,
and any refresh call that succeeded against the pre-change store still
succeeds against the post-change store with the same issued tokens. -/
theorem c10_update_password_frame (reqId : Nat) (reqPw cur newPw : String) (st st' : Store)
    (h : updatePasswordOp reqId reqPw cur newPw st = .ok st') :
    st'.refreshTokens = st.refreshTokens ∧ st'.otps = st.otps ∧
    st'.users = st.users.map (fun v =>
      if v.id == reqId then { v with password := bcryptHash newPw } else v) ∧
    ∀ now2 tok ntok nrid res st2,
      refreshTokenOp now2 tok ntok nrid st = .ok (res, st2) →
      ∃ st2', refreshTokenOp now2 tok ntok nrid st' = .ok (res, st2') := by
  obtain ⟨husers, hrts, hotps⟩ := updatePasswordOp_ok h
  refine ⟨hrts, hotps, husers, ?_⟩
  intro now2 tok ntok nrid res st2 h2
  obtain ⟨htok, tokenDoc, user, hv, hu, hcond, hres, _⟩ := refreshTokenOp_ok_elim h2
  obtain ⟨hid, hrole, hact⟩ := password_map_fields reqId newPw user
  have hfd : findUserById tokenDoc.userId st'.users =
      some (if user.id == reqId then { user with password := bcryptHash newPw }
            else user) := by
    rw [husers, findUserById_password_map, hu, Option.map_some']
  have hv2 : verifyRefreshToken now2 tok st'.refreshTokens = some tokenDoc := by
    rw [hrts]
    exact hv
  have hcond2 : ((if user.id == reqId then { user with password := bcryptHash newPw }
        else user).roleId != userTypesUser ||
      !(if user.id == reqId then { user with password := bcryptHash newPw }
        else user).isActive) = false := by
    rw [hrole, hact]
    exact hcond
  have hmain := @refreshTokenOp_ok_intro now2 tok ntok nrid st' tokenDoc
    (if user.id == reqId then { user with password := bcryptHash newPw } else user)
    htok hv2 hfd hcond2
  refine ⟨{ st' with refreshTokens :=
      (generateRefreshToken user.id ntok nrid now2 7
        (revokeRefreshToken tok st'.refreshTokens).2).2 }, ?_⟩
  rw [hmain, hres, hid]

/-- Witness for C10 at a concrete store. -/
theorem c10_witness :
    updatePasswordOp 7 "bcrypt$old" "old" "new"
        { users := [⟨7, "u", "e@x", "bcrypt$old", "", 2, true⟩]
          refreshTokens := [⟨1, "tokA", 7, 1000000, false⟩], otps := [] } =
      .ok { users := [⟨7, "u", "e@x", "bcrypt$new", "", 2, true⟩]
            refreshTokens := [⟨1, "tokA", 7, 1000000, false⟩], otps := [] } ∧
    ({ users := [⟨7, "u", "e@x", "bcrypt$new", "", 2, true⟩]
       refreshTokens := [⟨1, "tokA", 7, 1000000, false⟩]
       otps := [] } : Store).refreshTokens =
      ({ users := [⟨7, "u", "e@x", "bcrypt$old", "", 2, true⟩]
         refreshTokens := [⟨1, "tokA", 7, 1000000, false⟩]
         otps := [] } : Store).refreshTokens := by
  refine ⟨by decide, ?_⟩
  exact (c10_update_password_frame 7 "bcrypt$old" "old" "new"
      { users := [⟨7, "u", "e@x", "bcrypt$old", "", 2, true⟩]
        refreshTokens := [⟨1, "tokA", 7, 1000000, false⟩], otps := [] }
      { users := [⟨7, "u", "e@x", "bcrypt$new", "", 2, true⟩]
        refreshTokens := [⟨1, "tokA", 7, 1000000, false⟩], otps := [] }
      (by decide)).1

/-- Claim C8, counterexample: a token issued by `generateToken` with no
duration supplied (i.e. with its default duration parameter) expires 365 days
after issuance, not one hour after issuance. -/
theorem c8_counterexample :
    (generateToken 0 1 userTypesUser generateTokenDefaultDuration false).expiresAt ≠
      0 + 60 * minuteMs ∧
    (generateToken 0 1 userTypesUser generateTokenDefaultDuration false).expiresAt =
      0 + 365 * dayMs := by
  decide

/-- Claim C8, amended: the default duration of `generateToken` is 365 days, so
a token issued with no duration argument expires 365 days after issuance; the
auth endpoints obtain one-hour access tokens only by passing `'1h'`
explicitly. -/
theorem c8_amended (now id ty : Nat) (vc : Bool) :
    (generateToken now id ty generateTokenDefaultDuration vc).expiresAt =
      now + 365 * dayMs ∧
    (generateToken now id ty "1h" vc).expiresAt = now + 60 * minuteMs :=
  ⟨rfl, rfl⟩

theorem countDraws_formula (c : Nat) (hc : c < 1000000) :
    countDraws c = if c < 777216 then 17 else 16 := by
  have h24 : (2 : Nat) ^ 24 = 16777216 := by norm_num
  unfold countDraws otpValue
  rw [h24]
  by_cases h7 : c < 777216
  · rw [if_pos h7]
    have himg : (Finset.range 16777216).filter (fun b => b % 1000000 = c) =
        (Finset.range 17).image (fun k => c + 1000000 * k) := by
      ext b
      simp only [Finset.mem_filter, Finset.mem_range, Finset.mem_image]
      constructor
      · rintro ⟨hb, hm⟩
        exact ⟨b / 1000000, by omega, by omega⟩
      · rintro ⟨k, hk, rfl⟩
        exact ⟨by omega, by omega⟩
    rw [himg, Finset.card_image_of_injective _ (fun a b hab => by omega),
      Finset.card_range]
  · rw [if_neg h7]
    have himg : (Finset.range 16777216).filter (fun b => b % 1000000 = c) =
        (Finset.range 16).image (fun k => c + 1000000 * k) := by
      ext b
      simp only [Finset.mem_filter, Finset.mem_range, Finset.mem_image]
      constructor
      · rintro ⟨hb, hm⟩
        exact ⟨b / 1000000, by omega, by omega⟩
      · rintro ⟨k, hk, rfl⟩
        exact ⟨by omega, by omega⟩
    rw [himg, Finset.card_image_of_injective _ (fun a b hab => by omega),
      Finset.card_range]

/-- Claim C9, counterexample: the 24-bit draw reduced `mod 1,000,000` is not
uniform over the million codes: value 0 arises from 17 draws while value
999999 arises from only 16, so not every code is produced with equal
probability. -/
theorem c9_counterexample :
    ¬ ∀ c1 c2 : Nat, c1 < 1000000 → c2 < 1000000 → countDraws c1 = countDraws c2 := by
  intro hall
  have h := hall 0 999999 (by norm_num) (by norm_num)
  rw [countDraws_formula 0 (by norm_num), countDraws_formula 999999 (by norm_num)] at h
  norm_num at h

theorem decDigits_length_le : ∀ (k n : Nat), n < 10 ^ k → 1 ≤ k →
    (decDigits n).length ≤ k := by
  intro k
  induction k with
  | zero =>
    intro n h h1
    exact absurd h1 (by norm_num)
  | succ k ih =>
    intro n h h1
    by_cases h10 : n < 10
    · rw [decDigits, dif_pos h10]
      simp
    · rw [decDigits, dif_neg h10]
      rw [List.length_append]
      have hk1 : 1 ≤ k := by
        by_contra hk0
        have hk : k = 0 := by omega
        rw [hk] at h
        norm_num at h
        omega
      have hdiv : n / 10 < 10 ^ k := by
        rw [pow_succ] at h
        omega
      have hrec := ih (n / 10) hdiv hk1
      simp
      omega

theorem otpString_length (draw : Nat) : (otpString draw).length = 6 := by
  have h1 : otpValue draw < 1000000 := Nat.mod_lt _ (by norm_num)
  have h2 : (decDigits (otpValue draw)).length ≤ 6 := by
    apply decDigits_length_le 6 _ _ (by norm_num)
    have h6 : (10 : Nat) ^ 6 = 1000000 := by norm_num
    rw [h6]
    exact h1
  unfold otpString
  show (padStart (decDigits (otpValue draw)) 6 '0').length = 6
  unfold padStart
  rw [List.length_append, List.length_replicate]
  omega

/-- Claim C9, amended: every 24-bit draw yields a numeric code below 1,000,000
rendered as a 6-character zero-padded string, but the distribution carries a
modulo bias: codes below 777,216 (= 2^24 mod 10^6) arise from 17 draws each,
the remaining codes from 16 draws each. -/
theorem c9_amended :
    (∀ c : Nat, c < 1000000 → countDraws c = if c < 777216 then 17 else 16) ∧
    (∀ draw : Nat, otpValue draw < 1000000 ∧ (otpString draw).length = 6) := by
  refine ⟨fun c hc => countDraws_formula c hc, fun draw => ⟨?_, otpString_length draw⟩⟩
  exact Nat.mod_lt _ (by norm_num)

/-- Witness for C9 amended at concrete codes. -/
theorem c9_witness : countDraws 777215 = 17 ∧ countDraws 777216 = 16 := by
  have ha := c9_amended.1 777215 (by norm_num)
  have hb := c9_amended.1 777216 (by norm_num)
  norm_num at ha hb
  exact ⟨ha, hb⟩
